import Mathlib

/-!
Verification of the component-resolution and environment-composition engine
of the mpf-dev tool (src/config.rs, src/commands.rs), via a shallow
embedding.  Filesystem state is abstracted as parameters:
a path-existence predicate `fs : String → Bool` (modelling `Path::exists`)
and a canonicalization partial function `canonical : String → Option String`
(modelling `Path::canonicalize().ok()`); the Unix platform branch is the one
embedded (path separator "/", list separator ":", host executable
name "mpf-host", legacy symlink support compiled in).
The outcome of `serde_json::from_str` inside `DevConfig::load` is modelled
by an explicit `loadResult : Except String DevConfig` parameter at each
call site of `DevConfig::load()` (the error case standing for a malformed
dev.json, the ok case for a successfully parsed or absent file).
-/

namespace MpfDev

/-! ## Data model (src/config.rs lines 41-76) -/

/-- ComponentMode from config.rs: serde lowercase rename gives the on-disk
tags "binary" and "source". -/
inductive ComponentMode where
  | binary : ComponentMode
  | source : ComponentMode
deriving DecidableEq, Repr

/-- ComponentConfig from config.rs: one linked component override record.
Fields in Rust declaration order (mode, lib, qml, plugin, headers, bin),
which is also the serde serialization order. -/
structure ComponentConfig where
  mode : ComponentMode
  lib : Option String
  qml : Option String
  plugin : Option String
  headers : Option String
  bin : Option String
deriving DecidableEq, Repr

/-- DevConfig from config.rs.  The Rust `components` field is a
`HashMap<String, ComponentConfig>`; it is modelled as an association list
carrying the (unspecified, hasher-dependent) iteration order explicitly.
Keys are unique in any list obtained from a real HashMap. -/
structure DevConfig where
  sdk_version : Option String
  components : List (String × ComponentConfig)
deriving DecidableEq, Repr

/-- Rust `DevConfig::default()`: both fields at their serde defaults. -/
def defaultDevConfig : DevConfig := { sdk_version := none, components := [] }

/-! ## Path helpers -/

/-- Rust `Path::join` with a relative right operand (all call sites join a
plain relative component). -/
def pathJoin (a b : String) : String := a ++ "/" ++ b

/-- Separator join (the semantics of the Rust Vec join, written as a
structurally recursive function). -/
def joinWith (sep : String) : List String → String
  | [] => ""
  | [x] => x
  | x :: rest => x ++ sep ++ joinWith sep rest

/-- Prefix test on the character lists (equivalent to Rust str::starts_with
with a string pattern). -/
def strStartsWith (s pre : String) : Bool := pre.data.isPrefixOf s.data

/-- Rust `Path::is_absolute` on Unix. -/
def isAbsolute (s : String) : Bool := strStartsWith s "/"

/-- Splitting a character list on the slash separator. -/
def splitSlashAux : List Char → List Char → List (List Char)
  | [], cur => [cur.reverse]
  | '/' :: rest, cur => cur.reverse :: splitSlashAux rest []
  | c :: rest, cur => splitSlashAux rest (c :: cur)

/-- Rust `Path::file_name` mapped through `to_string_lossy`: the final path
segment, none when the path ends in a dot component or has no segment. -/
def fileName (p : String) : Option String :=
  let parts := (splitSlashAux p.data []).filter (fun l => !l.isEmpty)
  match parts.getLast? with
  | some last =>
    if last = ['.', '.'] || last = ['.'] then none else some (String.mk last)
  | none => none

/-- Left-to-right nonoverlapping replacement of the three-character pattern
backslash dot backslash by a single backslash, as done by
`s.replace("\\.\\", "\\")` in commands.rs line 26. -/
def cleanBackslashDots : List Char → List Char
  | [] => []
  | '\\' :: '.' :: '\\' :: rest2 => '\\' :: cleanBackslashDots rest2
  | c :: rest => c :: cleanBackslashDots rest

/-- Left-to-right nonoverlapping replacement of "/./" by "/", as done by
`.replace("/./", "/")` in commands.rs line 26. -/
def cleanSlashDots : List Char → List Char
  | [] => []
  | '/' :: '.' :: '/' :: rest2 => '/' :: cleanSlashDots rest2
  | c :: rest => c :: cleanSlashDots rest

/-- String cleanup branch of normalize_path (commands.rs lines 24-27). -/
def cleanup_string (s : String) : String :=
  String.mk (cleanSlashDots (cleanBackslashDots s.data))

/-- normalize_path from commands.rs lines 19-28: canonicalize when the path
exists, otherwise best-effort string cleanup. -/
def normalize_path (canonical : String → Option String) (p : String) : String :=
  match canonical p with
  | some c => c
  | none => cleanup_string p

/-- The shared resolve-to-absolute-and-normalize step used by link and the
derivation blocks (commands.rs lines 452-461 and analogous): absolute paths
are normalized directly, relative ones are joined onto the current working
directory first. -/
def resolve_path (canonical : String → Option String) (cwd : String) (s : String) : String :=
  if isAbsolute s then normalize_path canonical s
  else normalize_path canonical (pathJoin cwd s)

/-! ## Version store (src/config.rs lines 7-39 and 106-127) -/

/-- Rust `sdk_root()`: home directory joined with ".mpf-sdk"; the home
directory is a parameter of the embedding. -/
def sdk_root (home : String) : String := pathJoin home ".mpf-sdk"

/-- Rust `version_dir`: pure join of SDK root and version identifier. -/
def version_dir (home : String) (version : String) : String :=
  pathJoin (sdk_root home) version

/-- On-disk state consulted by `current_version` (config.rs lines 107-127):
whether current.txt exists, the result of reading it when it does
(none models a read failure), whether the legacy entry named current is a
symlink, and the result of read_link on it. -/
structure VersionStore where
  pointerExists : Bool
  pointerRead : Option String
  legacyIsSymlink : Bool
  legacyTarget : Option String
deriving DecidableEq, Repr

/-- Whitespace test backing the trim model; the ASCII whitespace characters
cover the pointer-file contents of interest (Rust char::is_whitespace
additionally accepts other Unicode whitespace). -/
def isWhitespaceChar (c : Char) : Bool :=
  c = ' ' || c = '\t' || c = '\n' || c = '\r'

/-- Rust str::trim: remove leading and trailing whitespace. -/
def trimString (s : String) : String :=
  String.mk (((s.data.dropWhile isWhitespaceChar).reverse.dropWhile
    isWhitespaceChar).reverse)

/-- Rust str::is_empty. -/
def strIsEmpty (s : String) : Bool := s.data.isEmpty

/-- current_version from config.rs lines 107-127: read and trim the pointer
file when it exists (empty content meaning unset), otherwise fall back to
the legacy symlink, extracting the final path segment of its target. -/
def current_version (st : VersionStore) : Option String :=
  if st.pointerExists then
    Option.filter (fun s => !strIsEmpty s) (st.pointerRead.map (fun s => trimString s))
  else if st.legacyIsSymlink then
    st.legacyTarget.bind fileName
  else
    none

/-- current_link from config.rs lines 27-34: the directory of the current
version when one resolves, otherwise the literal entry named current under
the SDK root (a path the callers then test for existence). -/
def current_link (home : String) (st : VersionStore) : String :=
  match current_version st with
  | some version => version_dir home version
  | none => pathJoin (sdk_root home) "current"

/-! ## HashMap operations on the association-list model

Rust HashMap insert replaces any existing value under the key; remove drops
it.  Iteration order of a HashMap is unspecified (hasher dependent), so the
order produced by these model operations is a representative choice; no
theorem below depends on where insertComponent places the new entry, only
on the resulting key-value mapping and, for ordering claims, on
universally quantified component lists. -/

def removeComponent (comps : List (String × ComponentConfig)) (k : String) :
    List (String × ComponentConfig) :=
  comps.filter (fun p => p.1 != k)

def insertComponent (comps : List (String × ComponentConfig)) (k : String)
    (v : ComponentConfig) : List (String × ComponentConfig) :=
  removeComponent comps k ++ [(k, v)]

/-! ## Path derivation (commands.rs lines 259-585) -/

/-- Plugin derivation block (commands.rs lines 261-277 and 467-495): given
the build root, lib is plugins/mpf when that exists else plugins, qml is
the qml subdirectory unconditionally.  Returns (lib, qml). -/
def plugin_derive (fs : String → Bool) (canonical : String → Option String)
    (cwd : String) (root : String) : String × String :=
  let abs := resolve_path canonical cwd root
  let plugins_mpf := pathJoin (pathJoin abs "plugins") "mpf"
  let lib :=
    if fs plugins_mpf then normalize_path canonical plugins_mpf
    else normalize_path canonical (pathJoin abs "plugins")
  let qml := normalize_path canonical (pathJoin abs "qml")
  (lib, qml)

/-- Host derivation block (commands.rs lines 308-333 and 502-542): bin is
the bin subdirectory when it holds the mpf-host executable, else the root
when that holds it, else bin as the unconfirmed default; qml is the qml
subdirectory when it exists, else the root.  Returns (bin, qml). -/
def host_derive (fs : String → Bool) (canonical : String → Option String)
    (cwd : String) (root : String) : String × String :=
  let abs := resolve_path canonical cwd root
  let bin :=
    if fs (pathJoin (pathJoin abs "bin") "mpf-host") then
      normalize_path canonical (pathJoin abs "bin")
    else if fs (pathJoin abs "mpf-host") then
      normalize_path canonical abs
    else
      normalize_path canonical (pathJoin abs "bin")
  let qml :=
    if fs (pathJoin abs "qml") then normalize_path canonical (pathJoin abs "qml")
    else normalize_path canonical abs
  (bin, qml)

/-- Generic library-component derivation (commands.rs lines 356-385):
lib is the lib subdirectory when it exists, else bin when that exists, else
the root; qml and headers only when the respective subdirectory exists. -/
def component_derive (fs : String → Bool) (canonical : String → Option String)
    (cwd : String) (root : String) : ComponentConfig :=
  let abs := resolve_path canonical cwd root
  let lib :=
    if fs (pathJoin abs "lib") then some (normalize_path canonical (pathJoin abs "lib"))
    else if fs (pathJoin abs "bin") then some (normalize_path canonical (pathJoin abs "bin"))
    else some (normalize_path canonical abs)
  let qml :=
    if fs (pathJoin abs "qml") then some (normalize_path canonical (pathJoin abs "qml"))
    else none
  let headers :=
    if fs (pathJoin abs "include") then some (normalize_path canonical (pathJoin abs "include"))
    else none
  { mode := ComponentMode.source, lib := lib, qml := qml, plugin := none,
    headers := headers, bin := none }

/-- Storage key used by link_plugin (commands.rs lines 287-291): the
plugin- marker is prepended unless already present. -/
def plugin_key (name : String) : String :=
  if strStartsWith name "plugin-" then name else "plugin-" ++ name

/-- Configuration stored by link_plugin (commands.rs lines 293-300). -/
def plugin_config (fs : String → Bool) (canonical : String → Option String)
    (cwd : String) (path : String) : ComponentConfig :=
  let d := plugin_derive fs canonical cwd path
  { mode := ComponentMode.source, lib := some d.1, qml := some d.2,
    plugin := some (normalize_path canonical (resolve_path canonical cwd path)),
    headers := none, bin := none }

/-- Configuration stored by link_host (commands.rs lines 341-348). -/
def host_config (fs : String → Bool) (canonical : String → Option String)
    (cwd : String) (path : String) : ComponentConfig :=
  let d := host_derive fs canonical cwd path
  { mode := ComponentMode.source, lib := none, qml := some d.2,
    plugin := none, headers := none, bin := some d.1 }

/-- Final per-field values computed by the manual link operation
(commands.rs lines 544-557): explicit option, else host-derived, else
plugin-derived, independently per field. -/
def manual_config (fs : String → Bool) (canonical : String → Option String)
    (cwd : String)
    (lib qml plugin headers bin host : Option String) : ComponentConfig :=
  let derived := plugin.map (plugin_derive fs canonical cwd)
  let hderived := host.map (host_derive fs canonical cwd)
  let final_lib := (lib.map (resolve_path canonical cwd)).or (derived.map Prod.fst)
  let final_qml :=
    ((qml.map (resolve_path canonical cwd)).or (hderived.map Prod.snd)).or
      (derived.map Prod.snd)
  let final_bin := (bin.map (resolve_path canonical cwd)).or (hderived.map Prod.fst)
  { mode := ComponentMode.source, lib := final_lib, qml := final_qml,
    plugin := plugin.map (resolve_path canonical cwd),
    headers := headers.map (resolve_path canonical cwd), bin := final_bin }

/-! ## Link registry operations (commands.rs lines 248-616)

Each operation takes the outcome of DevConfig::load() as an explicit
loadResult parameter.  All link variants call load().unwrap_or_default()
(commands.rs lines 284, 340, 393, 448), so they ignore a load failure and
proceed from the default empty configuration; unlink calls load()? and
propagates it (line 589).  The Except result type mirrors the Rust Result:
the link operations never construct an error from the loaded
configuration. -/

def link_plugin (fs : String → Bool) (canonical : String → Option String)
    (cwd : String) (loadResult : Except String DevConfig)
    (name path : String) : Except String DevConfig :=
  let dev_config := loadResult.toOption.getD defaultDevConfig
  Except.ok { dev_config with
    components := insertComponent dev_config.components (plugin_key name)
      (plugin_config fs canonical cwd path) }

def link_host (fs : String → Bool) (canonical : String → Option String)
    (cwd : String) (loadResult : Except String DevConfig)
    (path : String) : Except String DevConfig :=
  let dev_config := loadResult.toOption.getD defaultDevConfig
  Except.ok { dev_config with
    components := insertComponent dev_config.components "host"
      (host_config fs canonical cwd path) }

def link_component (fs : String → Bool) (canonical : String → Option String)
    (cwd : String) (loadResult : Except String DevConfig)
    (name path : String) : Except String DevConfig :=
  let dev_config := loadResult.toOption.getD defaultDevConfig
  Except.ok { dev_config with
    components := insertComponent dev_config.components name
      (component_derive fs canonical cwd path) }

/-- The manual link operation (commands.rs lines 421-585).  Via the CLI
(LinkAction::Manual, commands.rs lines 253-255) the host hint is always
None; the legacy function signature accepts it and it participates in the
per-field precedence chains. -/
def link (fs : String → Bool) (canonical : String → Option String)
    (cwd : String) (loadResult : Except String DevConfig) (component : String)
    (lib qml plugin headers bin host : Option String) : Except String DevConfig :=
  let dev_config := loadResult.toOption.getD defaultDevConfig
  Except.ok { dev_config with
    components := insertComponent dev_config.components component
      (manual_config fs canonical cwd lib qml plugin headers bin host) }

/-- Outcome reported by unlink (commands.rs lines 588-616). -/
inductive UnlinkResult where
  | clearedAll : Nat → UnlinkResult
  | removedExact : UnlinkResult
  | removedPrefixed : UnlinkResult
  | notLinked : UnlinkResult
deriving DecidableEq, Repr

/-- unlink from commands.rs lines 588-616: propagates a load failure; on
the wildcard token clears everything; otherwise exact key match first,
then the plugin-prefixed key; reports notLinked (still ok) when neither
matches. -/
def unlink (loadResult : Except String DevConfig) (component : String) :
    Except String (DevConfig × UnlinkResult) :=
  match loadResult with
  | Except.error e => Except.error e
  | Except.ok dev_config =>
    if component = "all" then
      let count := dev_config.components.length
      Except.ok ({ dev_config with components := [] }, UnlinkResult.clearedAll count)
    else if (List.lookup component dev_config.components).isSome then
      Except.ok ({ dev_config with
        components := removeComponent dev_config.components component },
        UnlinkResult.removedExact)
    else if (List.lookup ("plugin-" ++ component) dev_config.components).isSome then
      Except.ok ({ dev_config with
        components := removeComponent dev_config.components ("plugin-" ++ component) },
        UnlinkResult.removedPrefixed)
    else
      Except.ok (dev_config, UnlinkResult.notLinked)

/-! ## Environment composer (commands.rs lines 1391-1466) -/

/-- Accumulator of the component loop in build_env_paths: the four search
path vectors plus the host bin override candidate. -/
structure PathAcc where
  libs : List String
  qmls : List String
  plugs : List String
  mpfs : List String
  hostBin : Option String
deriving DecidableEq, Repr

/-- The for loop of build_env_paths (commands.rs lines 1411-1439): for every
component in Source mode, push lib, qml and plugin onto the respective
vectors; push lib also onto the MPF plugin vector unless the component is
named host or sdk; record the bin field of a component named host as the
host override candidate. -/
def collectPaths : List (String × ComponentConfig) → PathAcc → PathAcc
  | [], acc => acc
  | (name, comp) :: rest, acc =>
    if comp.mode = ComponentMode.source then
      let acc1 :=
        { acc with
          libs := match comp.lib with
            | some lib => acc.libs ++ [lib]
            | none => acc.libs
          mpfs := match comp.lib with
            | some lib =>
              if name != "host" && name != "sdk" then acc.mpfs ++ [lib] else acc.mpfs
            | none => acc.mpfs
          qmls := match comp.qml with
            | some qml => acc.qmls ++ [qml]
            | none => acc.qmls
          plugs := match comp.plugin with
            | some plug => acc.plugs ++ [plug]
            | none => acc.plugs
          hostBin :=
            if name = "host" then
              match comp.bin with
              | some bin => some bin
              | none => acc.hostBin
            else acc.hostBin }
      collectPaths rest acc1
    else
      collectPaths rest acc

/-- Result record of build_env_paths before the separator join: the search
paths are kept as the ordered vectors the source builds, the joined strings
being their colon-intercalation. -/
structure EnvPaths where
  sdkRoot : String
  libs : List String
  qmls : List String
  plugs : List String
  mpfs : List String
  hostPath : String
deriving DecidableEq, Repr

/-- build_env_paths from commands.rs lines 1393-1466: load the dev
configuration (a failure degrades to the default), resolve the current SDK
directory and fail when it does not exist, collect Source component paths
first, append the SDK baseline entries lib, qml and plugins last, and
resolve the host executable from the override candidate or the SDK bin
directory. -/
def build_env_paths (home : String) (fs : String → Bool) (st : VersionStore)
    (loadResult : Except String DevConfig) : Except String EnvPaths :=
  let dev_config := loadResult.toOption.getD defaultDevConfig
  let sdk := current_link home st
  if fs sdk then
    let acc := collectPaths dev_config.components
      { libs := [], qmls := [], plugs := [], mpfs := [], hostBin := none }
    let host_path :=
      match acc.hostBin with
      | some bin_dir => pathJoin bin_dir "mpf-host"
      | none => pathJoin (pathJoin sdk "bin") "mpf-host"
    Except.ok
      { sdkRoot := sdk,
        libs := acc.libs ++ [pathJoin sdk "lib"],
        qmls := acc.qmls ++ [pathJoin sdk "qml"],
        plugs := acc.plugs ++ [pathJoin sdk "plugins"],
        mpfs := acc.mpfs,
        hostPath := host_path }
  else
    Except.error "No SDK version set. Run \x27mpf-dev setup\x27 first."

/-- The platform separator join applied by build_env_paths before
returning (commands.rs lines 1446 and 1458-1465), Unix branch. -/
def joinPaths (paths : List String) : String := joinWith ":" paths

/-! ## Version normalization and the config updates of setup and use -/

/-- Version normalization as written in setup (commands.rs lines 42-46):
keep the identifier when its first character is the v marker, otherwise
prepend it. -/
def setup_normalize (version : String) : String :=
  if version.data.head? = some 'v' then version else "v" ++ version

/-- Version normalization as written in use_version (commands.rs lines
214-219), textually the same computation as in setup. -/
def use_normalize (version : String) : String :=
  if version.data.head? = some 'v' then version else "v" ++ version

/-- The dev.json update performed by setup (commands.rs lines 69-71):
load().unwrap_or_default(), set sdk_version, save. -/
def setup_update_dev (loadResult : Except String DevConfig)
    (version_normalized : String) : DevConfig :=
  let c := loadResult.toOption.getD defaultDevConfig
  { c with sdk_version := some version_normalized }

/-- The dev.json update performed by use_version (commands.rs lines
234-236), same shape as in setup. -/
def use_update_dev (loadResult : Except String DevConfig)
    (version_normalized : String) : DevConfig :=
  let c := loadResult.toOption.getD defaultDevConfig
  { c with sdk_version := some version_normalized }

/-- The configuration the status command works from (commands.rs line 620):
load().unwrap_or_default(). -/
def status_config (loadResult : Except String DevConfig) : DevConfig :=
  loadResult.toOption.getD defaultDevConfig

/-! ## Serialization (config.rs lines 91-103)

DevConfig::save serializes with serde_json::to_string_pretty: two-space
indentation, struct fields in declaration order, Option fields of
ComponentConfig omitted when None (skip_serializing_if), sdk_version
emitted as null when None, the components map emitted in the iteration
order of the HashMap.  That iteration order is carried by the components
list of the model; a fresh load of the same file may produce any
permutation of it, because each std HashMap instance draws its own hasher
keys. -/

def jsonEscapeChar (c : Char) : String :=
  if c = '"' then "\\\""
  else if c = '\\' then "\\\\"
  else if c = '\n' then "\\n"
  else if c = '\r' then "\\r"
  else if c = '\t' then "\\t"
  else String.singleton c

def jsonString (s : String) : String :=
  "\"" ++ String.join (s.data.map jsonEscapeChar) ++ "\""

def indentStr (n : Nat) : String := String.join (List.replicate n "  ")

/-- Pretty-printed JSON object at the given depth from pre-rendered field
values, matching the serde_json pretty formatter layout. -/
def jsonObject (depth : Nat) (fields : List (String × String)) : String :=
  if fields.isEmpty then "\x7b\x7d"
  else
    "\x7b\n" ++
    joinWith ",\n"
      (fields.map (fun f => indentStr (depth + 1) ++ jsonString f.1 ++ ": " ++ f.2)) ++
    "\n" ++ indentStr depth ++ "\x7d"

def serializeMode : ComponentMode → String
  | ComponentMode.binary => jsonString "binary"
  | ComponentMode.source => jsonString "source"

/-- Serialized fields of a ComponentConfig in declaration order, the None
options skipped as serde does under skip_serializing_if. -/
def componentFields (c : ComponentConfig) : List (String × String) :=
  [("mode", serializeMode c.mode)] ++
  (match c.lib with | some v => [("lib", jsonString v)] | none => []) ++
  (match c.qml with | some v => [("qml", jsonString v)] | none => []) ++
  (match c.plugin with | some v => [("plugin", jsonString v)] | none => []) ++
  (match c.headers with | some v => [("headers", jsonString v)] | none => []) ++
  (match c.bin with | some v => [("bin", jsonString v)] | none => [])

def serializeComponent (depth : Nat) (c : ComponentConfig) : String :=
  jsonObject depth (componentFields c)

/-- The byte content written by DevConfig::save for a given in-memory value
whose components iterate in the order of the list. -/
def serializeDevConfig (c : DevConfig) : String :=
  let sv := match c.sdk_version with | some v => jsonString v | none => "null"
  let comps := jsonObject 1 (c.components.map (fun p => (p.1, serializeComponent 2 p.2)))
  jsonObject 0 [("sdk_version", sv), ("components", comps)]

/-! ## Helper lemmas -/

theorem lookup_removeComponent_self (l : List (String × ComponentConfig))
    (k : String) : List.lookup k (removeComponent l k) = none := by
  induction l with
  | nil => rfl
  | cons hd tl ih =>
    obtain ⟨k1, v⟩ := hd
    simp only [removeComponent, List.filter_cons] at ih ⊢
    by_cases h : k1 = k
    · rw [if_neg (by simp [h])]
      exact ih
    · rw [if_pos (by simp [h]), List.lookup_cons]
      have h2 : (k == k1) = false := by simp [Ne.symm h]
      rw [h2]
      exact ih

theorem lookup_removeComponent_ne (l : List (String × ComponentConfig))
    (k k2 : String) (hne : k2 ≠ k) :
    List.lookup k2 (removeComponent l k) = List.lookup k2 l := by
  induction l with
  | nil => rfl
  | cons hd tl ih =>
    obtain ⟨k1, v⟩ := hd
    simp only [removeComponent, List.filter_cons] at ih ⊢
    by_cases h : k1 = k
    · rw [if_neg (by simp [h])]
      have h2 : (k2 == k1) = false := by simp [h, hne]
      rw [List.lookup_cons, h2]
      exact ih
    · rw [if_pos (by simp [h]), List.lookup_cons, List.lookup_cons]
      cases h2 : (k2 == k1) with
      | true => rfl
      | false => exact ih

theorem lookup_append_single (l : List (String × ComponentConfig)) (k : String)
    (v : ComponentConfig) (h : List.lookup k l = none) :
    List.lookup k (l ++ [(k, v)]) = some v := by
  induction l with
  | nil => simp [List.lookup_cons]
  | cons hd tl ih =>
    obtain ⟨k1, v1⟩ := hd
    rw [List.lookup_cons] at h
    rw [List.cons_append, List.lookup_cons]
    cases h2 : (k == k1) with
    | true =>
      rw [h2] at h
      exact Option.noConfusion h
    | false =>
      rw [h2] at h
      exact ih h

theorem lookup_insertComponent (l : List (String × ComponentConfig))
    (k : String) (v : ComponentConfig) :
    List.lookup k (insertComponent l k v) = some v :=
  lookup_append_single _ _ _ (lookup_removeComponent_self l k)

/-- Lib entries contributed by the component loop, in iteration order. -/
def libsOf (comps : List (String × ComponentConfig)) : List String :=
  comps.filterMap (fun nc =>
    if nc.2.mode = ComponentMode.source then nc.2.lib else none)

/-- Qml entries contributed by the component loop, in iteration order. -/
def qmlsOf (comps : List (String × ComponentConfig)) : List String :=
  comps.filterMap (fun nc =>
    if nc.2.mode = ComponentMode.source then nc.2.qml else none)

/-- Plugin entries contributed by the component loop, in iteration order. -/
def plugsOf (comps : List (String × ComponentConfig)) : List String :=
  comps.filterMap (fun nc =>
    if nc.2.mode = ComponentMode.source then nc.2.plugin else none)

/-- MPF plugin-discovery entries contributed by the component loop. -/
def mpfsOf (comps : List (String × ComponentConfig)) : List String :=
  comps.filterMap (fun nc =>
    if nc.2.mode = ComponentMode.source then
      match nc.2.lib with
      | some lib => if nc.1 != "host" && nc.1 != "sdk" then some lib else none
      | none => none
    else none)

theorem collectPaths_libs_eq (comps : List (String × ComponentConfig))
    (acc : PathAcc) : (collectPaths comps acc).libs = acc.libs ++ libsOf comps := by
  induction comps generalizing acc with
  | nil => simp [collectPaths, libsOf]
  | cons hd tl ih =>
    obtain ⟨name, comp⟩ := hd
    rw [collectPaths]
    by_cases hm : comp.mode = ComponentMode.source
    · rw [if_pos hm, ih]
      cases hl : comp.lib with
      | none => simp [libsOf, List.filterMap_cons, hm, hl]
      | some lib => simp [libsOf, List.filterMap_cons, hm, hl]
    · rw [if_neg hm, ih]
      simp [libsOf, List.filterMap_cons, hm]

theorem collectPaths_qmls_eq (comps : List (String × ComponentConfig))
    (acc : PathAcc) : (collectPaths comps acc).qmls = acc.qmls ++ qmlsOf comps := by
  induction comps generalizing acc with
  | nil => simp [collectPaths, qmlsOf]
  | cons hd tl ih =>
    obtain ⟨name, comp⟩ := hd
    rw [collectPaths]
    by_cases hm : comp.mode = ComponentMode.source
    · rw [if_pos hm, ih]
      cases hq : comp.qml with
      | none => simp [qmlsOf, List.filterMap_cons, hm, hq]
      | some qml => simp [qmlsOf, List.filterMap_cons, hm, hq]
    · rw [if_neg hm, ih]
      simp [qmlsOf, List.filterMap_cons, hm]

theorem collectPaths_plugs_eq (comps : List (String × ComponentConfig))
    (acc : PathAcc) : (collectPaths comps acc).plugs = acc.plugs ++ plugsOf comps := by
  induction comps generalizing acc with
  | nil => simp [collectPaths, plugsOf]
  | cons hd tl ih =>
    obtain ⟨name, comp⟩ := hd
    rw [collectPaths]
    by_cases hm : comp.mode = ComponentMode.source
    · rw [if_pos hm, ih]
      cases hp : comp.plugin with
      | none => simp [plugsOf, List.filterMap_cons, hm, hp]
      | some plug => simp [plugsOf, List.filterMap_cons, hm, hp]
    · rw [if_neg hm, ih]
      simp [plugsOf, List.filterMap_cons, hm]

theorem collectPaths_mpfs_eq (comps : List (String × ComponentConfig))
    (acc : PathAcc) : (collectPaths comps acc).mpfs = acc.mpfs ++ mpfsOf comps := by
  induction comps generalizing acc with
  | nil => simp [collectPaths, mpfsOf]
  | cons hd tl ih =>
    obtain ⟨name, comp⟩ := hd
    rw [collectPaths]
    by_cases hm : comp.mode = ComponentMode.source
    · rw [if_pos hm, ih]
      cases hl : comp.lib with
      | none => simp [mpfsOf, List.filterMap_cons, hm, hl]
      | some lib =>
        by_cases hh : name = "host"
        · simp [mpfsOf, List.filterMap_cons, hm, hl, hh]
        · by_cases hs : name = "sdk"
          · simp [mpfsOf, List.filterMap_cons, hm, hl, hs]
          · simp [mpfsOf, List.filterMap_cons, hm, hl, hh, hs]
    · rw [if_neg hm, ih]
      simp [mpfsOf, List.filterMap_cons, hm]

theorem mem_libsOf (comps : List (String × ComponentConfig)) (name : String)
    (comp : ComponentConfig) (P : String) (hmem : (name, comp) ∈ comps)
    (hmode : comp.mode = ComponentMode.source) (hlib : comp.lib = some P) :
    P ∈ libsOf comps :=
  List.mem_filterMap.mpr ⟨(name, comp), hmem, by simp [hmode, hlib]⟩

theorem mem_qmlsOf (comps : List (String × ComponentConfig)) (name : String)
    (comp : ComponentConfig) (P : String) (hmem : (name, comp) ∈ comps)
    (hmode : comp.mode = ComponentMode.source) (hqml : comp.qml = some P) :
    P ∈ qmlsOf comps :=
  List.mem_filterMap.mpr ⟨(name, comp), hmem, by simp [hmode, hqml]⟩

theorem mem_plugsOf (comps : List (String × ComponentConfig)) (name : String)
    (comp : ComponentConfig) (P : String) (hmem : (name, comp) ∈ comps)
    (hmode : comp.mode = ComponentMode.source) (hplug : comp.plugin = some P) :
    P ∈ plugsOf comps :=
  List.mem_filterMap.mpr ⟨(name, comp), hmem, by simp [hmode, hplug]⟩

theorem mem_mpfsOf_iff (comps : List (String × ComponentConfig)) (P : String) :
    P ∈ mpfsOf comps ↔ ∃ name comp, (name, comp) ∈ comps ∧
      comp.mode = ComponentMode.source ∧ comp.lib = some P ∧
      name ≠ "host" ∧ name ≠ "sdk" := by
  rw [mpfsOf, List.mem_filterMap]
  constructor
  · rintro ⟨⟨name, comp⟩, hmem, hf⟩
    refine ⟨name, comp, hmem, ?_⟩
    by_cases hm : comp.mode = ComponentMode.source
    · rw [if_pos hm] at hf
      cases hl : comp.lib with
      | none =>
        rw [hl] at hf
        cases hf
      | some lib =>
        rw [hl] at hf
        by_cases hh : name = "host"
        · rw [hh] at hf
          simp at hf
        · by_cases hs : name = "sdk"
          · rw [hs] at hf
            simp at hf
          · simp only [hh, hs] at hf
            simp at hf
            exact ⟨hm, by simp [hl, hf], hh, hs⟩
    · rw [if_neg hm] at hf
      cases hf
  · rintro ⟨name, comp, hmem, hm, hl, hh, hs⟩
    refine ⟨(name, comp), hmem, ?_⟩
    have hc : (name != "host" && name != "sdk") = true := by simp [hh, hs]
    simp [hm, hl, hc]

theorem mem_before_append_single (l : List String) (a b : String) (h : a ∈ l) :
    ∃ i j : Nat, i < j ∧ (l ++ [b])[i]? = some a ∧ (l ++ [b])[j]? = some b := by
  obtain ⟨i, hi, he⟩ := List.mem_iff_getElem.mp h
  refine ⟨i, l.length, hi, ?_, ?_⟩
  · rw [List.getElem?_append_left hi, List.getElem?_eq_getElem hi, he]
  · simp [List.getElem?_concat_length]

/-! ## Claim theorems -/

theorem head_append_v (v : String) : ("v" ++ v).data.head? = some 'v' := by
  obtain ⟨l⟩ := v
  rfl

/-- C8: version-identifier normalization is idempotent, an already
marker-prefixed identifier is returned unchanged, the bare form "1.0.0" and
the prefixed form "v1.0.0" normalize to the same stored value, and the
setup and use operations normalize identically. -/
theorem c8_normalization_idempotent :
    (∀ v, setup_normalize (setup_normalize v) = setup_normalize v) ∧
    (∀ v, use_normalize (use_normalize v) = use_normalize v) ∧
    (∀ v, setup_normalize ("v" ++ v) = "v" ++ v) ∧
    (∀ v, use_normalize ("v" ++ v) = "v" ++ v) ∧
    setup_normalize "1.0.0" = setup_normalize "v1.0.0" ∧
    use_normalize "1.0.0" = use_normalize "v1.0.0" ∧
    (∀ v, setup_normalize v = use_normalize v) := by
  have hpre : ∀ v, setup_normalize ("v" ++ v) = "v" ++ v := by
    intro v
    simp [setup_normalize, head_append_v]
  have hidem : ∀ v, setup_normalize (setup_normalize v) = setup_normalize v := by
    intro v
    by_cases h : v.data.head? = some 'v'
    · simp [setup_normalize, h]
    · have h1 : setup_normalize v = "v" ++ v := by rw [setup_normalize, if_neg h]
      rw [h1]
      exact hpre v
  refine ⟨hidem, hidem, hpre, hpre, by rfl, by rfl, fun v => rfl⟩

/-- C10: when the pointer file exists, current_version is independent of
the legacy symlink state; whitespace-only (or empty) pointer content yields
unset; the legacy symlink is consulted exactly when the pointer file is
absent. -/
theorem c10_pointer_file_precedence :
    (∀ (pr : Option String) (l1 : Bool) (t1 : Option String) (l2 : Bool)
        (t2 : Option String),
      current_version ⟨true, pr, l1, t1⟩ = current_version ⟨true, pr, l2, t2⟩) ∧
    (∀ (s : String) (l : Bool) (t : Option String),
      trimString s = "" → current_version ⟨true, some s, l, t⟩ = none) ∧
    (∀ (st : VersionStore), st.pointerExists = false → st.legacyIsSymlink = true →
      current_version st = st.legacyTarget.bind fileName) ∧
    (∀ (st : VersionStore), st.pointerExists = false → st.legacyIsSymlink = false →
      current_version st = none) := by
  refine ⟨fun pr l1 t1 l2 t2 => rfl, ?_, ?_, ?_⟩
  · intro s l t h
    simp [current_version, Option.filter, h, strIsEmpty]
  · intro st h1 h2
    simp [current_version, h1, h2]
  · intro st h1 h2
    simp [current_version, h1, h2]

/-- C10 witness: a pointer file holding only whitespace reports an unset
current version even though a legacy symlink naming an installed version is
present. -/
theorem c10_witness :
    current_version ⟨true, some "  \n ", true, some "/home/u/.mpf-sdk/v1.0.0"⟩ = none :=
  c10_pointer_file_precedence.2.1 "  \n " true (some "/home/u/.mpf-sdk/v1.0.0") (by decide)

/-- C1 counterexample: with a malformed dev.json (DevConfig::load returning
the parse error, config.rs lines 79-89), the link-plugin operation does not
fail; it proceeds from the empty default configuration and persists a
record containing only the freshly linked entry, discarding whatever the
malformed file previously stored. -/
theorem c1_counterexample :
    link_plugin (fun _ => false) (fun _ => none) "/w"
        (Except.error "Failed to parse dev.json") "orders" "/build" =
      Except.ok ⟨none, [("plugin-orders",
        ⟨ComponentMode.source, some "/build/plugins", some "/build/qml",
          some "/build", none, none⟩)]⟩ := by
  rfl

/-- C1 amended: only unlink surfaces the ParseError of a malformed
dev.json; the link operations, environment composition, setup, use and
status all behave exactly as if the stored configuration were the empty
default, and the mutating ones therefore silently replace the stored file
on their subsequent save. -/
theorem c1_amended_parse_error_only_unlink :
    (∀ (e : String) (comp : String), unlink (Except.error e) comp = Except.error e) ∧
    (∀ fs canonical (cwd e name path : String),
      link_plugin fs canonical cwd (Except.error e) name path =
        link_plugin fs canonical cwd (Except.ok defaultDevConfig) name path) ∧
    (∀ fs canonical (cwd e path : String),
      link_host fs canonical cwd (Except.error e) path =
        link_host fs canonical cwd (Except.ok defaultDevConfig) path) ∧
    (∀ fs canonical (cwd e name path : String),
      link_component fs canonical cwd (Except.error e) name path =
        link_component fs canonical cwd (Except.ok defaultDevConfig) name path) ∧
    (∀ fs canonical (cwd e component : String) lib qml plugin headers bin host,
      link fs canonical cwd (Except.error e) component lib qml plugin headers bin host =
        link fs canonical cwd (Except.ok defaultDevConfig) component lib qml plugin headers bin host) ∧
    (∀ (home : String) fs st (e : String),
      build_env_paths home fs st (Except.error e) =
        build_env_paths home fs st (Except.ok defaultDevConfig)) ∧
    (∀ (e v : String), setup_update_dev (Except.error e) v =
        setup_update_dev (Except.ok defaultDevConfig) v) ∧
    (∀ (e v : String), use_update_dev (Except.error e) v =
        use_update_dev (Except.ok defaultDevConfig) v) ∧
    (∀ (e : String), status_config (Except.error e) =
        status_config (Except.ok defaultDevConfig)) := by
  refine ⟨fun e comp => rfl, fun _ _ _ _ _ _ => rfl, fun _ _ _ _ _ => rfl,
    fun _ _ _ _ _ _ => rfl, fun _ _ _ _ _ _ _ _ _ _ _ => rfl,
    fun _ _ _ _ => rfl, fun _ _ => rfl, fun _ _ => rfl, fun _ => rfl⟩

/-- C9: every link variant stores its freshly derived configuration by
wholesale replacement; the looked-up entry after the operation is exactly
the derivation from the inputs, independent of whatever the previous entry
held (the derivation functions do not take the loaded configuration). -/
theorem c9_link_wholesale_replacement :
    (∀ fs canonical (cwd : String) loadResult (name path : String) out,
      link_plugin fs canonical cwd loadResult name path = Except.ok out →
      List.lookup (plugin_key name) out.components =
        some (plugin_config fs canonical cwd path)) ∧
    (∀ fs canonical (cwd : String) loadResult (path : String) out,
      link_host fs canonical cwd loadResult path = Except.ok out →
      List.lookup "host" out.components =
        some (host_config fs canonical cwd path)) ∧
    (∀ fs canonical (cwd : String) loadResult (name path : String) out,
      link_component fs canonical cwd loadResult name path = Except.ok out →
      List.lookup name out.components =
        some (component_derive fs canonical cwd path)) ∧
    (∀ fs canonical (cwd : String) loadResult (component : String)
        lib qml plugin headers bin host out,
      link fs canonical cwd loadResult component lib qml plugin headers bin host =
        Except.ok out →
      List.lookup component out.components =
        some (manual_config fs canonical cwd lib qml plugin headers bin host)) := by
  refine ⟨?_, ?_, ?_, ?_⟩
  · intro fs canonical cwd loadResult name path out h
    simp only [link_plugin, Except.ok.injEq] at h
    subst h
    exact lookup_insertComponent _ _ _
  · intro fs canonical cwd loadResult path out h
    simp only [link_host, Except.ok.injEq] at h
    subst h
    exact lookup_insertComponent _ _ _
  · intro fs canonical cwd loadResult name path out h
    simp only [link_component, Except.ok.injEq] at h
    subst h
    exact lookup_insertComponent _ _ _
  · intro fs canonical cwd loadResult component lib qml plugin headers bin host out h
    simp only [link, Except.ok.injEq] at h
    subst h
    exact lookup_insertComponent _ _ _

/-- C6: unlink tries an exact key match first and then the plugin-prefixed
key: when only the prefixed key is stored the operation succeeds, removes
exactly that entry and leaves the other keys untouched; when neither key is
stored it reports notLinked without raising an error. -/
theorem c6_unlink_fallback :
    (∀ (cfg : DevConfig) (name : String),
      name ≠ "all" →
      List.lookup name cfg.components = none →
      (List.lookup ("plugin-" ++ name) cfg.components).isSome = true →
      unlink (Except.ok cfg) name =
        Except.ok (⟨cfg.sdk_version,
            removeComponent cfg.components ("plugin-" ++ name)⟩,
          UnlinkResult.removedPrefixed) ∧
      List.lookup ("plugin-" ++ name)
        (removeComponent cfg.components ("plugin-" ++ name)) = none ∧
      (∀ k, k ≠ "plugin-" ++ name →
        List.lookup k (removeComponent cfg.components ("plugin-" ++ name)) =
          List.lookup k cfg.components)) ∧
    (∀ (cfg : DevConfig) (name : String),
      name ≠ "all" →
      List.lookup name cfg.components = none →
      List.lookup ("plugin-" ++ name) cfg.components = none →
      unlink (Except.ok cfg) name = Except.ok (cfg, UnlinkResult.notLinked)) := by
  constructor
  · intro cfg name hall hexact hpre
    refine ⟨?_, lookup_removeComponent_self _ _,
      fun k hk => lookup_removeComponent_ne _ _ _ hk⟩
    simp [unlink, hall, hexact, hpre]
  · intro cfg name hall hexact hpre
    simp [unlink, hall, hexact, hpre]

/-- C6 witness: with only "plugin-orders" stored, unlink of the short name
"orders" removes it via the prefix fallback, and unlink of a name that is
stored under neither form leaves the store unchanged and reports
notLinked. -/
theorem c6_witness :
    unlink (Except.ok ⟨none, [("plugin-orders",
        ⟨ComponentMode.source, some "/L", none, none, none, none⟩)]⟩) "orders" =
      Except.ok (⟨none, []⟩, UnlinkResult.removedPrefixed) ∧
    unlink (Except.ok ⟨none, [("plugin-orders",
        ⟨ComponentMode.source, some "/L", none, none, none, none⟩)]⟩) "rules" =
      Except.ok (⟨none, [("plugin-orders",
        ⟨ComponentMode.source, some "/L", none, none, none, none⟩)]⟩,
        UnlinkResult.notLinked) := by
  constructor
  · exact (c6_unlink_fallback.1 ⟨none, [("plugin-orders",
      ⟨ComponentMode.source, some "/L", none, none, none, none⟩)]⟩ "orders"
      (by decide) (by decide) (by decide)).1
  · exact c6_unlink_fallback.2 ⟨none, [("plugin-orders",
      ⟨ComponentMode.source, some "/L", none, none, none, none⟩)]⟩ "rules"
      (by decide) (by decide) (by decide)

/-- C5 counterexample: two in-memory configurations holding the same
component mapping but in different iteration orders (the lists are
permutations of each other) serialize to different bytes.  A std HashMap
draws fresh hasher keys per instance, so a reload of the saved file may
iterate its entries in a different order; save(load()) applied twice is
therefore not guaranteed byte-identical once two components are stored. -/
theorem c5_counterexample :
    (([("a", (⟨ComponentMode.source, some "/la", none, none, none, none⟩ :
          ComponentConfig)),
       ("b", ⟨ComponentMode.source, some "/lb", none, none, none, none⟩)] :
        List (String × ComponentConfig)).Perm
      [("b", ⟨ComponentMode.source, some "/lb", none, none, none, none⟩),
       ("a", ⟨ComponentMode.source, some "/la", none, none, none, none⟩)]) ∧
    serializeDevConfig ⟨none,
        [("a", ⟨ComponentMode.source, some "/la", none, none, none, none⟩),
         ("b", ⟨ComponentMode.source, some "/lb", none, none, none, none⟩)]⟩ ≠
      serializeDevConfig ⟨none,
        [("b", ⟨ComponentMode.source, some "/lb", none, none, none, none⟩),
         ("a", ⟨ComponentMode.source, some "/la", none, none, none, none⟩)]⟩ := by
  constructor
  · decide
  · decide

/-- C5 amended: the serialized bytes are a function of the in-memory value
together with its component iteration order; for configurations whose
component maps are equal up to permutation the bytes agree whenever at most
one component is stored (where the iteration order is forced), but with two
or more components a different iteration order changes the bytes, so the
round trip is deterministic only up to reordering of component entries. -/
theorem c5_amended_serialization_deterministic :
    ∀ c1 c2 : DevConfig, c1.sdk_version = c2.sdk_version →
      c1.components.Perm c2.components → c1.components.length ≤ 1 →
      serializeDevConfig c1 = serializeDevConfig c2 := by
  intro c1 c2 hs hp hl
  obtain ⟨sv1, comps1⟩ := c1
  obtain ⟨sv2, comps2⟩ := c2
  simp only at hs hp hl
  subst hs
  have he : comps1 = comps2 := by
    cases comps1 with
    | nil => exact (List.Perm.eq_nil hp.symm).symm
    | cons a tl =>
      cases tl with
      | nil => exact (List.perm_singleton.mp hp.symm).symm
      | cons b tl2 => simp at hl
  subst he
  rfl

/-- C5 witness: a configuration with a single stored component satisfies
the hypotheses, and its serialization agrees with that of the identically
ordered copy. -/
theorem c5_witness :
    serializeDevConfig ⟨some "v1.0.0",
        [("plugin-orders", ⟨ComponentMode.source, some "/L", none, none, none, none⟩)]⟩ =
      serializeDevConfig ⟨some "v1.0.0",
        [("plugin-orders", ⟨ComponentMode.source, some "/L", none, none, none, none⟩)]⟩ :=
  c5_amended_serialization_deterministic _ _ rfl (List.Perm.refl _) (by decide)

/-- C4 counterexample: with no version pointer and no legacy symlink, a
stray ordinary directory named current under the SDK root makes the
environment composition succeed instead of failing with the NotConfigured
error, even though no current version resolves. -/
theorem c4_counterexample :
    current_version ⟨false, none, false, none⟩ = none ∧
    (build_env_paths "/h" (fun p => decide (p = "/h/.mpf-sdk/current"))
        ⟨false, none, false, none⟩ (Except.ok defaultDevConfig)).isOk = true := by
  exact ⟨rfl, rfl⟩

/-- C4 amended: environment composition fails with the NotConfigured error
exactly when the directory resolved by current_link does not exist: with a
pointer naming version v it is the directory of v (so a deleted version
directory fails), and with no pointer and no legacy symlink it is the
literal current entry under the SDK root, which normally does not exist —
but a stray entry of that name makes composition succeed. -/
theorem c4_amended_not_configured :
    (∀ (home : String) (fs : String → Bool) (st : VersionStore)
        (loadResult : Except String DevConfig),
      (build_env_paths home fs st loadResult).isOk = true ↔
        fs (current_link home st) = true) ∧
    (∀ (home : String) (fs : String → Bool) (st : VersionStore)
        (loadResult : Except String DevConfig),
      fs (current_link home st) = false →
      build_env_paths home fs st loadResult =
        Except.error "No SDK version set. Run \x27mpf-dev setup\x27 first.") ∧
    (∀ (home s : String) (l : Bool) (t : Option String),
      strIsEmpty (trimString s) = false →
      current_link home ⟨true, some s, l, t⟩ = version_dir home (trimString s)) ∧
    (∀ (home : String) (st : VersionStore), st.pointerExists = false →
      st.legacyIsSymlink = false →
      current_link home st = pathJoin (sdk_root home) "current") := by
  refine ⟨?_, ?_, ?_, ?_⟩
  · intro home fs st loadResult
    cases h : fs (current_link home st) with
    | true => simp [build_env_paths, h, Except.isOk, Except.toBool]
    | false => simp [build_env_paths, h, Except.isOk, Except.toBool]
  · intro home fs st loadResult h
    simp [build_env_paths, h]
  · intro home s l t h
    simp [current_link, current_version, Option.filter, h, version_dir]
  · intro home st h1 h2
    simp [current_link, current_version, h1, h2]

/-- C4 witness: a pointer naming a version whose directory does not exist
(the path-existence predicate is constantly false) makes composition fail
with the NotConfigured error, and the resolved directory is indeed the
version directory of the (trimmed) pointer content. -/
theorem c4_witness :
    build_env_paths "/h" (fun _ => false)
        ⟨true, some "v9.9.9", false, none⟩ (Except.ok defaultDevConfig) =
      Except.error "No SDK version set. Run \x27mpf-dev setup\x27 first." ∧
    current_link "/h" ⟨true, some "v9.9.9", false, none⟩ = "/h/.mpf-sdk/v9.9.9" := by
  constructor
  · exact c4_amended_not_configured.2.1 "/h" (fun _ => false)
      ⟨true, some "v9.9.9", false, none⟩ (Except.ok defaultDevConfig) rfl
  · exact (c4_amended_not_configured.2.2.1 "/h" "v9.9.9" false none
      (by decide)).trans (by rfl)

/-- C2: for every component stored in Source mode, its lib path appears in
the composed library search path strictly before the SDK-baseline entry
sdk/lib, and the same before-baseline ordering holds for qml paths relative
to sdk/qml and plugin paths relative to sdk/plugins, for every resolvable
current version. -/
theorem c2_source_paths_shadow_sdk_baseline :
    ∀ (home : String) (fs : String → Bool) (st : VersionStore)
      (cfg : DevConfig) (out : EnvPaths) (name : String) (comp : ComponentConfig),
      build_env_paths home fs st (Except.ok cfg) = Except.ok out →
      (name, comp) ∈ cfg.components →
      comp.mode = ComponentMode.source →
      (∀ P, comp.lib = some P → ∃ i j : Nat, i < j ∧ out.libs[i]? = some P ∧
        out.libs[j]? = some (pathJoin (current_link home st) "lib")) ∧
      (∀ P, comp.qml = some P → ∃ i j : Nat, i < j ∧ out.qmls[i]? = some P ∧
        out.qmls[j]? = some (pathJoin (current_link home st) "qml")) ∧
      (∀ P, comp.plugin = some P → ∃ i j : Nat, i < j ∧ out.plugs[i]? = some P ∧
        out.plugs[j]? = some (pathJoin (current_link home st) "plugins")) := by
  intro home fs st cfg out name comp hbuild hmem hmode
  simp only [build_env_paths] at hbuild
  by_cases hfs : fs (current_link home st) = true
  · rw [if_pos hfs] at hbuild
    injection hbuild with hout
    subst hout
    dsimp only
    refine ⟨?_, ?_, ?_⟩
    · intro P hP
      have hin : P ∈ (collectPaths cfg.components
          ⟨[], [], [], [], none⟩).libs := by
        rw [collectPaths_libs_eq]
        simpa using mem_libsOf cfg.components name comp P hmem hmode hP
      exact mem_before_append_single _ P _ hin
    · intro P hP
      have hin : P ∈ (collectPaths cfg.components
          ⟨[], [], [], [], none⟩).qmls := by
        rw [collectPaths_qmls_eq]
        simpa using mem_qmlsOf cfg.components name comp P hmem hmode hP
      exact mem_before_append_single _ P _ hin
    · intro P hP
      have hin : P ∈ (collectPaths cfg.components
          ⟨[], [], [], [], none⟩).plugs := by
        rw [collectPaths_plugs_eq]
        simpa using mem_plugsOf cfg.components name comp P hmem hmode hP
      exact mem_before_append_single _ P _ hin
  · rw [if_neg hfs] at hbuild
    exact Except.noConfusion hbuild

/-- C7: in a successfully composed environment the plugin-discovery search
path contains exactly the lib paths of Source components named neither
host nor sdk, while components named host or sdk still contribute their
lib path to the ordinary library search path. -/
theorem c7_mpf_plugin_path_excludes_host_sdk :
    ∀ (home : String) (fs : String → Bool) (st : VersionStore)
      (cfg : DevConfig) (out : EnvPaths),
      build_env_paths home fs st (Except.ok cfg) = Except.ok out →
      (∀ P, P ∈ out.mpfs ↔ ∃ name comp, (name, comp) ∈ cfg.components ∧
        comp.mode = ComponentMode.source ∧ comp.lib = some P ∧
        name ≠ "host" ∧ name ≠ "sdk") ∧
      (∀ name comp P, (name, comp) ∈ cfg.components →
        comp.mode = ComponentMode.source → comp.lib = some P →
        (name = "host" ∨ name = "sdk") → P ∈ out.libs) := by
  intro home fs st cfg out hbuild
  simp only [build_env_paths] at hbuild
  by_cases hfs : fs (current_link home st) = true
  · rw [if_pos hfs] at hbuild
    injection hbuild with hout
    subst hout
    dsimp only
    constructor
    · intro P
      rw [collectPaths_mpfs_eq]
      simpa using mem_mpfsOf_iff cfg.components P
    · intro name comp P hmem hmode hlib hns
      have hin : P ∈ (collectPaths cfg.components
          ⟨[], [], [], [], none⟩).libs := by
        rw [collectPaths_libs_eq]
        simpa using mem_libsOf cfg.components name comp P hmem hmode hlib
      exact List.mem_append_left _ hin
  · rw [if_neg hfs] at hbuild
    exact Except.noConfusion hbuild

/-- C3: in the manual link operation, per field, an explicit value beats a
host-derived value which beats a plugin-derived value; the explicit value
is what gets stored under the component key and what reaches the composed
library search path. -/
theorem c3_manual_link_precedence :
    ∀ (fs : String → Bool) (canonical : String → Option String)
      (cwd : String) (loadResult : Except String DevConfig) (component : String)
      (lib qml plugin headers bin host : Option String) (out : DevConfig),
      link fs canonical cwd loadResult component lib qml plugin headers bin host =
        Except.ok out →
      (∀ l, lib = some l →
        (manual_config fs canonical cwd lib qml plugin headers bin host).lib =
          some (resolve_path canonical cwd l)) ∧
      (∀ q, qml = some q →
        (manual_config fs canonical cwd lib qml plugin headers bin host).qml =
          some (resolve_path canonical cwd q)) ∧
      (∀ b, bin = some b →
        (manual_config fs canonical cwd lib qml plugin headers bin host).bin =
          some (resolve_path canonical cwd b)) ∧
      (∀ h, qml = none → host = some h →
        (manual_config fs canonical cwd lib qml plugin headers bin host).qml =
          some (host_derive fs canonical cwd h).2) ∧
      (∀ p, qml = none → host = none → plugin = some p →
        (manual_config fs canonical cwd lib qml plugin headers bin host).qml =
          some (plugin_derive fs canonical cwd p).2) ∧
      (∀ b, bin = none → host = some b →
        (manual_config fs canonical cwd lib qml plugin headers bin host).bin =
          some (host_derive fs canonical cwd b).1) ∧
      (∀ p, lib = none → plugin = some p →
        (manual_config fs canonical cwd lib qml plugin headers bin host).lib =
          some (plugin_derive fs canonical cwd p).1) ∧
      List.lookup component out.components =
        some (manual_config fs canonical cwd lib qml plugin headers bin host) ∧
      (∀ l (home : String) (fs2 : String → Bool) (st : VersionStore)
          (out2 : EnvPaths), lib = some l →
        build_env_paths home fs2 st (Except.ok out) = Except.ok out2 →
        resolve_path canonical cwd l ∈ out2.libs) := by
  intro fs canonical cwd loadResult component lib qml plugin headers bin host out hlink
  have hstore : out = { loadResult.toOption.getD defaultDevConfig with
      components := insertComponent
        (loadResult.toOption.getD defaultDevConfig).components component
        (manual_config fs canonical cwd lib qml plugin headers bin host) } := by
    simp only [link, Except.ok.injEq] at hlink
    exact hlink.symm
  refine ⟨?_, ?_, ?_, ?_, ?_, ?_, ?_, ?_, ?_⟩
  · intro l hl
    subst hl
    simp [manual_config]
  · intro q hq
    subst hq
    simp [manual_config]
  · intro b hb
    subst hb
    simp [manual_config]
  · intro h hq hh
    subst hq
    subst hh
    simp [manual_config]
  · intro p hq hh hp
    subst hq
    subst hh
    subst hp
    simp [manual_config]
  · intro b hb hh
    subst hb
    subst hh
    simp [manual_config]
  · intro p hl hp
    subst hl
    subst hp
    simp [manual_config]
  · subst hstore
    exact lookup_insertComponent _ _ _
  · intro l home fs2 st out2 hl hbuild
    subst hl
    have hmem : (component,
        manual_config fs canonical cwd (some l) qml plugin headers bin host) ∈
        out.components := by
      rw [hstore]
      exact List.mem_append_right _ (List.mem_singleton.mpr rfl)
    have hlib : (manual_config fs canonical cwd (some l) qml plugin headers bin
        host).lib = some (resolve_path canonical cwd l) := by
      simp [manual_config]
    simp only [build_env_paths] at hbuild
    by_cases hfs : fs2 (current_link home st) = true
    · rw [if_pos hfs] at hbuild
      injection hbuild with hout
      subst hout
      dsimp only
      have hin : resolve_path canonical cwd l ∈ (collectPaths out.components
          ⟨[], [], [], [], none⟩).libs := by
        rw [collectPaths_libs_eq]
        simpa using mem_libsOf out.components component _ _ hmem rfl hlib
      exact List.mem_append_left _ hin
    · rw [if_neg hfs] at hbuild
      exact Except.noConfusion hbuild

/-! ## Witness inputs -/

def c2WitnessCfg : DevConfig :=
  ⟨none, [("ui-components",
    ⟨ComponentMode.source, some "/L", some "/Q", some "/P", none, none⟩)]⟩

def c2WitnessSt : VersionStore := ⟨true, some "v1", false, none⟩

def c2WitnessOut : EnvPaths :=
  ⟨"/h/.mpf-sdk/v1", ["/L", "/h/.mpf-sdk/v1/lib"], ["/Q", "/h/.mpf-sdk/v1/qml"],
    ["/P", "/h/.mpf-sdk/v1/plugins"], ["/L"], "/h/.mpf-sdk/v1/bin/mpf-host"⟩

/-- C2 witness: one linked Source component with lib, qml and plugin paths
set, under an existing current version, yields all three before-baseline
orderings at the computed composed environment. -/
theorem c2_witness :
    (∃ i j : Nat, i < j ∧ c2WitnessOut.libs[i]? = some "/L" ∧
      c2WitnessOut.libs[j]? = some (pathJoin (current_link "/h" c2WitnessSt) "lib")) ∧
    (∃ i j : Nat, i < j ∧ c2WitnessOut.qmls[i]? = some "/Q" ∧
      c2WitnessOut.qmls[j]? = some (pathJoin (current_link "/h" c2WitnessSt) "qml")) ∧
    (∃ i j : Nat, i < j ∧ c2WitnessOut.plugs[i]? = some "/P" ∧
      c2WitnessOut.plugs[j]? = some (pathJoin (current_link "/h" c2WitnessSt) "plugins")) := by
  have h := c2_source_paths_shadow_sdk_baseline "/h" (fun _ => true) c2WitnessSt
    c2WitnessCfg c2WitnessOut "ui-components"
    ⟨ComponentMode.source, some "/L", some "/Q", some "/P", none, none⟩
    (by rfl) (by decide) rfl
  exact ⟨h.1 "/L" rfl, h.2.1 "/Q" rfl, h.2.2 "/P" rfl⟩

def c7WitnessCfg : DevConfig :=
  ⟨none, [("host", ⟨ComponentMode.source, some "/HL", none, none, none, some "/HB"⟩),
    ("plugin-orders", ⟨ComponentMode.source, some "/PL", none, none, none, none⟩)]⟩

def c7WitnessOut : EnvPaths :=
  ⟨"/h/.mpf-sdk/v1", ["/HL", "/PL", "/h/.mpf-sdk/v1/lib"], ["/h/.mpf-sdk/v1/qml"],
    ["/h/.mpf-sdk/v1/plugins"], ["/PL"], "/HB/mpf-host"⟩

/-- C7 witness: with a linked host (lib /HL) and a linked plugin (lib /PL),
the plugin-discovery path contains /PL but not /HL, while /HL still sits in
the ordinary library search path. -/
theorem c7_witness :
    ("/PL" ∈ c7WitnessOut.mpfs) ∧ ("/HL" ∉ c7WitnessOut.mpfs) ∧
    ("/HL" ∈ c7WitnessOut.libs) := by
  have h := c7_mpf_plugin_path_excludes_host_sdk "/h" (fun _ => true)
    ⟨true, some "v1", false, none⟩ c7WitnessCfg c7WitnessOut (by rfl)
  refine ⟨?_, ?_, ?_⟩
  · exact (h.1 "/PL").mpr ⟨"plugin-orders",
      ⟨ComponentMode.source, some "/PL", none, none, none, none⟩,
      by decide, rfl, rfl, by decide, by decide⟩
  · intro hin
    obtain ⟨n, c, hmemc, hmode, hlib, hh, hs⟩ := (h.1 "/HL").mp hin
    simp [c7WitnessCfg] at hmemc
    rcases hmemc with ⟨rfl, rfl⟩ | ⟨rfl, rfl⟩
    · exact hh rfl
    · exact absurd hlib (by decide)
  · exact h.2 "host" ⟨ComponentMode.source, some "/HL", none, none, none, some "/HB"⟩
      "/HL" (by decide) rfl rfl (Or.inl rfl)

def c3WitnessConfig : ComponentConfig :=
  manual_config (fun _ => false) (fun _ => none) "/w" (some "/el") (some "/eq")
    (some "/p") none (some "/eb") (some "/hst")

def c3WitnessOut : DevConfig := ⟨none, [("ui-components", c3WitnessConfig)]⟩

def c3WitnessEnv : EnvPaths :=
  ⟨"/h/.mpf-sdk/v1", ["/el", "/h/.mpf-sdk/v1/lib"], ["/eq", "/h/.mpf-sdk/v1/qml"],
    ["/p", "/h/.mpf-sdk/v1/plugins"], ["/el"], "/h/.mpf-sdk/v1/bin/mpf-host"⟩

/-- C3 witness: with explicit lib, qml and bin given alongside both a
plugin root and a host root (so every field also has a derivable value),
the explicit values are the stored field values, the entry is stored under
the component key, and the explicit lib reaches the composed library
search path. -/
theorem c3_witness :
    c3WitnessConfig.lib = some "/el" ∧
    c3WitnessConfig.qml = some "/eq" ∧
    c3WitnessConfig.bin = some "/eb" ∧
    List.lookup "ui-components" c3WitnessOut.components = some c3WitnessConfig ∧
    "/el" ∈ c3WitnessEnv.libs := by
  have h := c3_manual_link_precedence (fun _ => false) (fun _ => none) "/w"
    (Except.ok defaultDevConfig) "ui-components" (some "/el") (some "/eq")
    (some "/p") none (some "/eb") (some "/hst") c3WitnessOut (by rfl)
  refine ⟨?_, ?_, ?_, ?_, ?_⟩
  · exact h.1 "/el" rfl
  · exact h.2.1 "/eq" rfl
  · exact h.2.2.1 "/eb" rfl
  · exact h.2.2.2.2.2.2.2.1
  · exact h.2.2.2.2.2.2.2.2 "/el" "/h" (fun _ => true)
      ⟨true, some "v1", false, none⟩ c3WitnessEnv rfl (by rfl)

def c9Old : ComponentConfig :=
  ⟨ComponentMode.binary, some "/old/lib", some "/old/qml", some "/old/plug",
    some "/old/inc", some "/old/bin"⟩

/-- C9 witness: each link variant applied over a store already holding an
entry (with different field values) under the target key leaves exactly
the freshly derived configuration there. -/
theorem c9_witness :
    List.lookup "plugin-orders"
      ((link_plugin (fun _ => false) (fun _ => none) "/w"
        (Except.ok ⟨some "v1", [("plugin-orders", c9Old)]⟩) "orders" "/b").toOption.getD
          defaultDevConfig).components =
      some (plugin_config (fun _ => false) (fun _ => none) "/w" "/b") ∧
    List.lookup "host"
      ((link_host (fun _ => false) (fun _ => none) "/w"
        (Except.ok ⟨some "v1", [("host", c9Old)]⟩) "/b").toOption.getD
          defaultDevConfig).components =
      some (host_config (fun _ => false) (fun _ => none) "/w" "/b") ∧
    List.lookup "ui-components"
      ((link_component (fun _ => false) (fun _ => none) "/w"
        (Except.ok ⟨some "v1", [("ui-components", c9Old)]⟩) "ui-components"
        "/b").toOption.getD defaultDevConfig).components =
      some (component_derive (fun _ => false) (fun _ => none) "/w" "/b") ∧
    List.lookup "http-client"
      ((link (fun _ => false) (fun _ => none) "/w"
        (Except.ok ⟨some "v1", [("http-client", c9Old)]⟩) "http-client"
        (some "/l") none none none none none).toOption.getD
          defaultDevConfig).components =
      some (manual_config (fun _ => false) (fun _ => none) "/w"
        (some "/l") none none none none none) := by
  refine ⟨?_, ?_, ?_, ?_⟩
  · exact c9_link_wholesale_replacement.1 (fun _ => false) (fun _ => none) "/w"
      (Except.ok ⟨some "v1", [("plugin-orders", c9Old)]⟩) "orders" "/b" _ rfl
  · exact c9_link_wholesale_replacement.2.1 (fun _ => false) (fun _ => none) "/w"
      (Except.ok ⟨some "v1", [("host", c9Old)]⟩) "/b" _ rfl
  · exact c9_link_wholesale_replacement.2.2.1 (fun _ => false) (fun _ => none) "/w"
      (Except.ok ⟨some "v1", [("ui-components", c9Old)]⟩) "ui-components" "/b" _ rfl
  · exact c9_link_wholesale_replacement.2.2.2 (fun _ => false) (fun _ => none) "/w"
      (Except.ok ⟨some "v1", [("http-client", c9Old)]⟩) "http-client"
      (some "/l") none none none none none _ rfl

end MpfDev



